import Mathlib

/-!
Verification of the F&O load pipeline in `scripts/load_data_duckdb.py`.

The script creates four tables (`exchanges`, `instruments`, `expiries`,
`trades`), reads a CSV into a temp table `raw_data` applying per-column
`TRY_CAST`s and `strptime`, and then populates the dimension tables with
`INSERT ... ON CONFLICT DO NOTHING` and the fact table with a three-way join.

This file is a shallow embedding of that SQL:
  * SQL NULL-able columns become `Option` fields;
  * `DECIMAL(p,2)` values are represented exactly as integer hundredths
    (cents); `BIGINT` as `Int`;
  * `DATE`/`TIMESTAMP` values become a `Date` triple (the `%d-%b-%Y` format
    carries no time-of-day, so `CAST(ts AS DATE)` is the identity here);
  * DuckDB's `strptime` raises on malformed non-NULL input (only
    `try_strptime` returns NULL), so date-column parsing is `Except`-valued,
    while `TRY_CAST` of numerics is `Option`-valued;
  * `INSERT ... ON CONFLICT DO NOTHING` is a left fold that skips a row when
    it conflicts with an already-present row on the PRIMARY KEY or on the
    declared UNIQUE constraint (NULLs treated as distinct, as in SQL);
  * `SELECT DISTINCT` is `List.dedup` (SQL leaves the order unspecified);
    `ROW_NUMBER() OVER ()` numbers the rows of the joined result from 1.
-/

namespace FOPipeline

/-- A calendar date (the `%d-%b-%Y` values in the CSV carry no time part). -/
structure Date where
  year : Nat
  month : Nat
  day : Nat
deriving DecidableEq, Repr

/-- Month abbreviations accepted by `strptime`'s `%b` directive. -/
def monthAbbrevs : List String :=
  ["Jan", "Feb", "Mar", "Apr", "May", "Jun",
   "Jul", "Aug", "Sep", "Oct", "Nov", "Dec"]

/-- Split a character list at every occurrence of `sep` (the semantics of
`splitOn` for a one-character separator, as structural recursion). -/
def splitOnChar (sep : Char) : List Char → List (List Char)
  | [] => [[]]
  | c :: cs =>
    if c = sep then [] :: splitOnChar sep cs
    else
      match splitOnChar sep cs with
      | [] => [[c]]
      | g :: gs => (c :: g) :: gs

/-- 1-based month number of a `%b` month abbreviation. -/
def monthIndex (ms : List Char) : Option Nat :=
  (((monthAbbrevs.map String.toList).findIdx? (· = ms)).map (· + 1))

/-- Digit-string to number; `none` on empty input or any non-digit. -/
def digitsToNat? (l : List Char) : Option Nat :=
  if l ≠ [] ∧ l.all Char.isDigit then
    some (l.foldl (fun acc c => acc * 10 + (c.toNat - 48)) 0)
  else none

/-- Error message produced by the `strptime` model on malformed input. -/
def strptimeErrMsg : String :=
  "Invalid Input Error: Could not parse string according to format specifier %d-%b-%Y"

/-- DuckDB `strptime(s, '%d-%b-%Y')`: day (1-2 digits, 1..31), month
abbreviation, 4-digit year.  DuckDB's `strptime` RAISES on malformed input
(`try_strptime` is the non-raising variant), hence the `Except` result.
(Month-length validation of the day is not modelled; no claim depends on it.) -/
def strptimeDMonY (s : String) : Except String Date :=
  match splitOnChar '-' s.toList with
  | [ds, ms, ys] =>
    match digitsToNat? ds, monthIndex ms, digitsToNat? ys with
    | some d, some m, some y =>
      if 1 ≤ d ∧ d ≤ 31 ∧ ds.length ≤ 2 ∧ ys.length = 4 then
        Except.ok ⟨y, m, d⟩
      else Except.error strptimeErrMsg
    | _, _, _ => Except.error strptimeErrMsg
  | _ => Except.error strptimeErrMsg

/-- `TRY_CAST(s AS BIGINT)`: optional sign followed by digits. -/
def parseSignedDigits (l : List Char) : Option Int :=
  match l with
  | '-' :: rest => (digitsToNat? rest).map fun n => -(n : Int)
  | _ => (digitsToNat? l).map fun n => (n : Int)

/-- Fractional digits of a decimal literal, scaled to hundredths, rounding
on the third digit (digits beyond the third are ignored; no claim uses them). -/
def fracToCents (l : List Char) : Option Nat :=
  if l ≠ [] ∧ l.all Char.isDigit then
    let d1 := match l with | a :: _ => a.toNat - 48 | [] => 0
    let d2 := match l with | _ :: b :: _ => b.toNat - 48 | _ => 0
    let d3 := match l with | _ :: _ :: c :: _ => c.toNat - 48 | _ => 0
    some (d1 * 10 + d2 + (if 5 ≤ d3 then 1 else 0))
  else none

/-- `TRY_CAST(s AS DECIMAL(p,2))`, represented exactly as integer hundredths. -/
def parseDecimalCents (s : String) : Option Int :=
  match splitOnChar '.' s.toList with
  | [ip] => (parseSignedDigits ip).map (· * 100)
  | [ip, fp] =>
    match ip with
    | '-' :: rest =>
      match digitsToNat? rest, fracToCents fp with
      | some n, some f => some (-((n * 100 + f : Nat) : Int))
      | _, _ => none
    | l =>
      match digitsToNat? l, fracToCents fp with
      | some n, some f => some ((n * 100 + f : Nat) : Int)
      | _, _ => none
  | _ => none

/-- One CSV record as produced by `read_csv_auto`: every referenced column is
read as VARCHAR (the `%d-%b-%Y` dates are not in the sniffer's candidate
formats) and an empty cell is NULL. -/
structure CsvRow where
  INSTRUMENT : Option String
  SYMBOL : Option String
  EXPIRY_DT : Option String
  STRIKE_PR : Option String
  OPTION_TYP : Option String
  OPEN : Option String
  HIGH : Option String
  LOW : Option String
  CLOSE : Option String
  SETTLE_PR : Option String
  CONTRACTS : Option String
  VAL_INLAKH : Option String
  OPEN_INT : Option String
  CHG_IN_OI : Option String
  TIMESTAMP : Option String
deriving DecidableEq, Repr

/-- One row of the temp table `raw_data` (after the SELECT's casts). -/
structure RawRow where
  instrument : Option String
  symbol : Option String
  expiry_dt : Option Date
  strike_pr : Option Int
  option_typ : Option String
  «open» : Option Int
  high : Option Int
  low : Option Int
  close : Option Int
  settle_pr : Option Int
  contracts : Option Int
  val_inlakh : Option Int
  open_int : Option Int
  chg_in_oi : Option Int
  timestamp : Option Date
deriving DecidableEq, Repr

/-- `TRY_CAST(strptime(c, '%d-%b-%Y') AS DATE)`: `strptime(NULL)` is NULL, but
a malformed non-NULL string makes `strptime` raise — the surrounding
`TRY_CAST` only guards the (always-safe) TIMESTAMP-to-DATE cast. -/
def parseDateCol (c : Option String) : Except String (Option Date) :=
  match c with
  | none => Except.ok none
  | some s => (strptimeDMonY s).map some

/-- The per-row SELECT of the `CREATE TEMP TABLE raw_data` statement
(lines 91-110 of `load_data_duckdb.py`). -/
def parseCsvRow (c : CsvRow) : Except String RawRow := do
  let ed ← parseDateCol c.EXPIRY_DT
  let ts ← parseDateCol c.TIMESTAMP
  Except.ok
    { instrument := c.INSTRUMENT
      symbol := c.SYMBOL
      expiry_dt := ed
      strike_pr := c.STRIKE_PR.bind parseDecimalCents
      option_typ := c.OPTION_TYP
      «open» := c.OPEN.bind parseDecimalCents
      high := c.HIGH.bind parseDecimalCents
      low := c.LOW.bind parseDecimalCents
      close := c.CLOSE.bind parseDecimalCents
      settle_pr := c.SETTLE_PR.bind parseDecimalCents
      contracts := c.CONTRACTS.bind fun s => parseSignedDigits s.toList
      val_inlakh := c.VAL_INLAKH.bind parseDecimalCents
      open_int := c.OPEN_INT.bind fun s => parseSignedDigits s.toList
      chg_in_oi := c.CHG_IN_OI.bind fun s => parseSignedDigits s.toList
      timestamp := ts }

/-- Building the whole `raw_data` table: the first raising row aborts the
query (and hence the load). -/
def buildRawData (cs : List CsvRow) : Except String (List RawRow) :=
  cs.mapM parseCsvRow

/-! ## Target schema (`create_duckdb_schema`, lines 19-82) -/

/-- A row of `exchanges`. -/
structure Exchange where
  exchange_id : Nat
  exchange_code : String
  exchange_name : String
  country : String
  is_active : Bool
deriving DecidableEq, Repr

/-- The three seeded exchange rows (lines 33-39). -/
def seededExchanges : List Exchange :=
  [⟨1, "NSE", "National Stock Exchange of India", "India", true⟩,
   ⟨2, "BSE", "Bombay Stock Exchange", "India", true⟩,
   ⟨3, "MCX", "Multi Commodity Exchange of India", "India", true⟩]

/-- A row of `instruments`.  `instrument_type` and `symbol` are inserted
straight from the (nullable) raw columns, hence `Option`. -/
structure Instrument where
  instrument_id : Nat
  exchange_id : Nat
  instrument_type : Option String
  symbol : Option String
  series : String
deriving DecidableEq, Repr

/-- A row of `expiries`.  The insert filters `expiry_dt IS NOT NULL` and
COALESCEs strike/option type, so those columns are never NULL. -/
structure Expiry where
  expiry_id : Nat
  instrument_id : Nat
  expiry_date : Date
  strike_price : Int
  option_type : String
deriving DecidableEq, Repr

/-- A row of `trades`.  Every measure is COALESCEd and the insert filters
`timestamp IS NOT NULL`, so no stored column is NULL. -/
structure Trade where
  trade_id : Nat
  expiry_id : Nat
  instrument_id : Nat
  trade_date : Date
  «open» : Int
  high : Int
  low : Int
  close : Int
  settle_price : Int
  contracts : Int
  value_in_lakh : Int
  open_interest : Int
  change_in_oi : Int
  timestamp : Date
deriving DecidableEq, Repr

/-! ## SQL building blocks -/

/-- SQL equality on two nullable strings: true only when both sides are
non-NULL and equal (`NULL = x` is NULL, which a join treats as no match). -/
def sqlEqStr : Option String → Option String → Bool
  | some a, some b => a = b
  | _, _ => false

/-- `ROW_NUMBER() OVER ()` starting at `n`: number a list of pre-rows. -/
def numberFrom (f : Nat → κ → α) : Nat → List κ → List α
  | _, [] => []
  | n, k :: ks => f n k :: numberFrom f (n + 1) ks

/-- Concatenation of the images of `f`, i.e. a one-to-many SQL join step. -/
def flatMapL (f : α → List β) : List α → List β
  | [] => []
  | x :: xs => f x ++ flatMapL f xs

/-- Conflict test of `ON CONFLICT DO NOTHING`: a candidate row conflicts with
a stored row when they agree on the PRIMARY KEY or on the natural
(UNIQUE-constraint) key. -/
def conflictOf (idOf : α → Nat) (natc : α → α → Bool) (j x : α) : Bool :=
  (idOf j == idOf x) || natc j x

/-- Insert one row, skipping it when it conflicts with a stored row. -/
def insertSkip (c : α → α → Bool) (tbl : List α) (x : α) : List α :=
  if tbl.any (fun j => c j x) then tbl else tbl ++ [x]

/-- `INSERT ... ON CONFLICT DO NOTHING` of a whole batch. -/
def insertAll (c : α → α → Bool) (tbl : List α) (batch : List α) : List α :=
  batch.foldl (insertSkip c) tbl

/-! ## Instruments insert (lines 112-126) -/

/-- The `SELECT DISTINCT instrument, symbol FROM raw_data` subquery.
Note there is NO null filter: null identity pairs are kept. -/
def instrKeys (rs : List RawRow) : List (Option String × Option String) :=
  (rs.map fun r => (r.instrument, r.symbol)).dedup

/-- `p = true` iff `pat` occurs as a contiguous run at the front. -/
def startsWithChars : List Char → List Char → Bool
  | [], _ => true
  | _ :: _, [] => false
  | p :: ps, c :: cs => p = c && startsWithChars ps cs

/-- `pat` occurs as a contiguous run somewhere in the list. -/
def containsChars (pat : List Char) : List Char → Bool
  | [] => startsWithChars pat []
  | c :: cs => startsWithChars pat (c :: cs) || containsChars pat cs

/-- `instrument LIKE '%OPT%'` used as a CASE condition: NULL input falls
through to the ELSE branch. -/
def likeContainsOPT : Option String → Bool
  | none => false
  | some s => containsChars "OPT".toList s.toList

/-- One row of the instruments batch: surrogate id, the constant NSE
exchange id 1, and the derived `series`. -/
def mkInstrument (n : Nat) (k : Option String × Option String) : Instrument :=
  { instrument_id := n
    exchange_id := 1
    instrument_type := k.1
    symbol := k.2
    series := if likeContainsOPT k.1 then "OPT" else "FUT" }

/-- The SELECT feeding `INSERT INTO instruments`. -/
def instrBatch (rs : List RawRow) : List Instrument :=
  numberFrom mkInstrument 1 (instrKeys rs)

/-- UNIQUE(exchange_id, instrument_type, symbol), NULLs distinct. -/
def instrNatConfB (j i : Instrument) : Bool :=
  (j.exchange_id == i.exchange_id)
    && sqlEqStr j.instrument_type i.instrument_type
    && sqlEqStr j.symbol i.symbol

/-- Conflict test for the `instruments` table (PK or UNIQUE). -/
def instrConflictB : Instrument → Instrument → Bool :=
  conflictOf Instrument.instrument_id instrNatConfB

/-- `INSERT INTO instruments ... ON CONFLICT DO NOTHING` against a table. -/
def instrInsertPhase (tbl : List Instrument) (rs : List RawRow) : List Instrument :=
  insertAll instrConflictB tbl (instrBatch rs)

/-! ## Expiries insert (lines 128-146) -/

/-- One tuple of the `SELECT DISTINCT ... WHERE expiry_dt IS NOT NULL`
subquery. -/
structure ExpiryTuple where
  instrument : Option String
  symbol : Option String
  expiry_dt : Date
  strike_pr : Option Int
  option_typ : Option String
deriving DecidableEq, Repr

/-- The distinct expiry tuples of `raw_data` with a non-NULL expiry date. -/
def expiryTuples (rs : List RawRow) : List ExpiryTuple :=
  (rs.filterMap fun r =>
    r.expiry_dt.map fun d => (⟨r.instrument, r.symbol, d, r.strike_pr, r.option_typ⟩ : ExpiryTuple)).dedup

/-- An expiries row before `ROW_NUMBER` assignment. -/
structure ExpiryPre where
  instrument_id : Nat
  expiry_date : Date
  strike_price : Int
  option_type : String
deriving DecidableEq, Repr

/-- The join condition `r.instrument = i.instrument_type AND r.symbol = i.symbol`. -/
def instrMatchKeyB (i : Instrument) (ins sym : Option String) : Bool :=
  sqlEqStr ins i.instrument_type && sqlEqStr sym i.symbol

/-- Expiry rows produced by one distinct tuple: one per matching instrument,
with `COALESCE(strike_pr, 0)` and `COALESCE(option_typ, 'XX')`. -/
def expiryContrib (instrs : List Instrument) (t : ExpiryTuple) : List ExpiryPre :=
  (instrs.filter fun i => instrMatchKeyB i t.instrument t.symbol).map fun i =>
    { instrument_id := i.instrument_id
      expiry_date := t.expiry_dt
      strike_price := t.strike_pr.getD 0
      option_type := t.option_typ.getD "XX" }

/-- The joined SELECT feeding `INSERT INTO expiries`, before numbering. -/
def expiryJoin (instrs : List Instrument) (rs : List RawRow) : List ExpiryPre :=
  flatMapL (expiryContrib instrs) (expiryTuples rs)

/-- Attach the `ROW_NUMBER() OVER ()` surrogate key. -/
def mkExpiry (n : Nat) (p : ExpiryPre) : Expiry :=
  { expiry_id := n
    instrument_id := p.instrument_id
    expiry_date := p.expiry_date
    strike_price := p.strike_price
    option_type := p.option_type }

/-- The SELECT feeding `INSERT INTO expiries`. -/
def expiryBatch (instrs : List Instrument) (rs : List RawRow) : List Expiry :=
  numberFrom mkExpiry 1 (expiryJoin instrs rs)

/-- UNIQUE(instrument_id, expiry_date, strike_price, option_type); all four
columns are non-NULL by construction, so this is plain equality. -/
def expiryNatConfB (j e : Expiry) : Bool :=
  (j.instrument_id == e.instrument_id)
    && (j.expiry_date == e.expiry_date)
    && (j.strike_price == e.strike_price)
    && (j.option_type == e.option_type)

/-- Conflict test for the `expiries` table (PK or UNIQUE). -/
def expiryConflictB : Expiry → Expiry → Bool :=
  conflictOf Expiry.expiry_id expiryNatConfB

/-- `INSERT INTO expiries ... ON CONFLICT DO NOTHING` against a table. -/
def expiryInsertPhase (instrs : List Instrument) (tbl : List Expiry)
    (rs : List RawRow) : List Expiry :=
  insertAll expiryConflictB tbl (expiryBatch instrs rs)

/-! ## Trades insert (lines 148-174) -/

/-- The expiry-side join condition of the trades insert:
`ex.instrument_id = i.instrument_id AND ex.expiry_date = r.expiry_dt AND
COALESCE(ex.strike_price,0) = COALESCE(r.strike_pr,0) AND
COALESCE(ex.option_type,'XX') = COALESCE(r.option_typ,'XX')`.
The stored `strike_price`/`option_type` are non-NULL by construction, so the
left-hand COALESCEs are the identity; `NULL`-valued `r.expiry_dt` matches
nothing. -/
def expMatchB (ex : Expiry) (iid : Nat) (r : RawRow) : Bool :=
  (ex.instrument_id == iid)
    && (some ex.expiry_date == r.expiry_dt)
    && (ex.strike_price == r.strike_pr.getD 0)
    && (ex.option_type == r.option_typ.getD "XX")

/-- A trades row before `ROW_NUMBER` assignment. -/
structure TradePre where
  expiry_id : Nat
  instrument_id : Nat
  trade_date : Date
  «open» : Int
  high : Int
  low : Int
  close : Int
  settle_price : Int
  contracts : Int
  value_in_lakh : Int
  open_interest : Int
  change_in_oi : Int
  timestamp : Date
deriving DecidableEq, Repr

/-- The trade rows contributed by one `raw_data` record: the double join of
lines 166-172 plus the `WHERE r.timestamp IS NOT NULL` filter, with every
measure COALESCEd to 0.  `trade_date` is `CAST(r.timestamp AS DATE)`. -/
def tradeContrib (instrs : List Instrument) (exps : List Expiry)
    (r : RawRow) : List TradePre :=
  match r.timestamp with
  | none => []
  | some ts =>
    flatMapL
      (fun i =>
        (exps.filter fun ex => expMatchB ex i.instrument_id r).map fun ex =>
          { expiry_id := ex.expiry_id
            instrument_id := i.instrument_id
            trade_date := ts
            «open» := r.«open».getD 0
            high := r.high.getD 0
            low := r.low.getD 0
            close := r.close.getD 0
            settle_price := r.settle_pr.getD 0
            contracts := r.contracts.getD 0
            value_in_lakh := r.val_inlakh.getD 0
            open_interest := r.open_int.getD 0
            change_in_oi := r.chg_in_oi.getD 0
            timestamp := ts })
      (instrs.filter fun i => instrMatchKeyB i r.instrument r.symbol)

/-- The joined SELECT feeding `INSERT INTO trades`, before numbering. -/
def tradeJoin (instrs : List Instrument) (exps : List Expiry)
    (rs : List RawRow) : List TradePre :=
  flatMapL (tradeContrib instrs exps) rs

/-- Attach the `ROW_NUMBER() OVER ()` surrogate key. -/
def mkTrade (n : Nat) (p : TradePre) : Trade :=
  { trade_id := n
    expiry_id := p.expiry_id
    instrument_id := p.instrument_id
    trade_date := p.trade_date
    «open» := p.«open»
    high := p.high
    low := p.low
    close := p.close
    settle_price := p.settle_price
    contracts := p.contracts
    value_in_lakh := p.value_in_lakh
    open_interest := p.open_interest
    change_in_oi := p.change_in_oi
    timestamp := p.timestamp }

/-- `INSERT INTO trades` (plain insert, no conflict clause; the table is
fresh in a single run and the numbered keys are distinct). -/
def tradesPhase (instrs : List Instrument) (exps : List Expiry)
    (rs : List RawRow) : List Trade :=
  numberFrom mkTrade 1 (tradeJoin instrs exps rs)

/-- The state of the four tables. -/
structure DB where
  exchanges : List Exchange
  instruments : List Instrument
  expiries : List Expiry
  trades : List Trade
deriving DecidableEq, Repr

/-- One run of `create_duckdb_schema` + `load_data_duckdb` against a fresh
database, starting from the parsed `raw_data` rows. -/
def runPipeline (rs : List RawRow) : DB :=
  let instrs := instrInsertPhase [] rs
  let exps := expiryInsertPhase instrs [] rs
  { exchanges := seededExchanges
    instruments := instrs
    expiries := exps
    trades := tradesPhase instrs exps rs }

/-! ## Generic lemmas about the SQL building blocks -/

section Generic

variable {α β κ : Type*}

theorem flatMapL_append (f : α → List β) (l1 l2 : List α) :
    flatMapL f (l1 ++ l2) = flatMapL f l1 ++ flatMapL f l2 := by
  induction l1 with
  | nil => rfl
  | cons x xs ih => simp [flatMapL, ih]

theorem mem_flatMapL {f : α → List β} {b : β} {l : List α} :
    b ∈ flatMapL f l ↔ ∃ a ∈ l, b ∈ f a := by
  induction l with
  | nil => simp [flatMapL]
  | cons x xs ih =>
    simp [flatMapL, List.mem_append, ih, or_and_right, exists_or]

theorem flatMapL_eq_nil {f : α → List β} {l : List α} (h : ∀ a ∈ l, f a = []) :
    flatMapL f l = [] := by
  induction l with
  | nil => rfl
  | cons x xs ih =>
    simp [flatMapL, h x (List.mem_cons_self x xs),
      ih fun a ha => h a (List.mem_cons_of_mem x ha)]

theorem length_flatMapL_eq_countP {f : α → List β} {p : α → Bool} {l : List α}
    (h : ∀ a ∈ l, (f a).length = if p a then 1 else 0) :
    (flatMapL f l).length = (l.filter p).length := by
  induction l with
  | nil => rfl
  | cons x xs ih =>
    have hx := h x (List.mem_cons_self x xs)
    have ih' := ih fun a ha => h a (List.mem_cons_of_mem x ha)
    simp only [flatMapL, List.length_append, ih', hx, List.filter_cons]
    cases hp : p x
    · simp [hp]
    · simp [hp]
      omega

theorem numberFrom_length (f : Nat → κ → α) (n : Nat) (ks : List κ) :
    (numberFrom f n ks).length = ks.length := by
  induction ks generalizing n with
  | nil => rfl
  | cons k ks ih => simp [numberFrom, ih]

theorem numberFrom_append (f : Nat → κ → α) (n : Nat) (l1 l2 : List κ) :
    numberFrom f n (l1 ++ l2)
      = numberFrom f n l1 ++ numberFrom f (n + l1.length) l2 := by
  induction l1 generalizing n with
  | nil => simp [numberFrom]
  | cons k ks ih =>
    have harith : n + 1 + ks.length = n + (ks.length + 1) := by omega
    show f n k :: numberFrom f (n + 1) (ks ++ l2)
      = numberFrom f n (k :: ks) ++ numberFrom f (n + (k :: ks).length) l2
    rw [ih, harith]
    simp [numberFrom]

theorem mem_numberFrom {f : Nat → κ → α} {x : α} {n : Nat} {ks : List κ}
    (h : x ∈ numberFrom f n ks) : ∃ m k, n ≤ m ∧ k ∈ ks ∧ x = f m k := by
  induction ks generalizing n with
  | nil => simp [numberFrom] at h
  | cons k ks ih =>
    rcases List.mem_cons.mp h with h | h
    · exact ⟨n, k, le_refl n, List.mem_cons_self _ _, h⟩
    · rcases ih h with ⟨m, k', hm, hk, hx⟩
      exact ⟨m, k', by omega, List.mem_cons_of_mem _ hk, hx⟩

theorem numberFrom_mem_of_mem {f : Nat → κ → α} {k : κ} {ks : List κ}
    (h : k ∈ ks) (n : Nat) : ∃ m, f m k ∈ numberFrom f n ks := by
  induction ks generalizing n with
  | nil => cases h
  | cons k0 ks ih =>
    rcases List.mem_cons.mp h with rfl | h'
    · exact ⟨n, List.mem_cons_self _ _⟩
    · rcases ih h' (n + 1) with ⟨m, hm⟩
      exact ⟨m, List.mem_cons_of_mem _ hm⟩

theorem numberFrom_map_id {f : Nat → κ → α} {idOf : α → Nat}
    (h : ∀ m k, idOf (f m k) = m) (n : Nat) (ks : List κ) :
    (numberFrom f n ks).map idOf = List.range' n ks.length := by
  induction ks generalizing n with
  | nil => rfl
  | cons k ks ih => simp [numberFrom, List.range'_succ, h, ih]

theorem length_filter_numberFrom {f : Nat → κ → α} {P : α → Bool} {Q : κ → Bool}
    (hPQ : ∀ m k, P (f m k) = Q k) (n : Nat) (ks : List κ) :
    ((numberFrom f n ks).filter P).length = (ks.filter Q).length := by
  induction ks generalizing n with
  | nil => rfl
  | cons k ks ih =>
    simp only [numberFrom, List.filter_cons, hPQ]
    cases hq : Q k <;> simp [hq, ih]

theorem pairwise_numberFrom {f : Nat → κ → α} {R : κ → κ → Prop}
    {P : α → α → Prop} {ks : List κ} (hks : ks.Pairwise R)
    (h : ∀ m k m' k', m < m' → R k k' → P (f m k) (f m' k')) (n : Nat) :
    (numberFrom f n ks).Pairwise P := by
  induction ks generalizing n with
  | nil => exact List.Pairwise.nil
  | cons k ks ih =>
    rcases List.pairwise_cons.mp hks with ⟨hk, hks'⟩
    refine List.Pairwise.cons ?_ (ih hks' (n + 1))
    intro x hx
    rcases mem_numberFrom hx with ⟨m, k', hm, hk', rfl⟩
    exact h n k m k' (by omega) (hk k' hk')

theorem length_filter_key_eq_one [DecidableEq κ] {ks : List κ} {key : κ}
    (hnd : ks.Nodup) (hmem : key ∈ ks) :
    (ks.filter fun k => k = key).length = 1 := by
  induction ks with
  | nil => cases hmem
  | cons k ks ih =>
    rcases List.nodup_cons.mp hnd with ⟨hk, hnd'⟩
    rcases List.mem_cons.mp hmem with rfl | hmem'
    · have hnil : (ks.filter fun a => a = key) = [] := by
        refine List.filter_eq_nil_iff.mpr ?_
        intro a ha
        simp only [decide_eq_true_eq]
        intro heq
        exact hk (heq ▸ ha)
      simp [List.filter_cons, hnil]
    · have hne : ¬(k = key) := fun heq => hk (heq ▸ hmem')
      simp [List.filter_cons, hne, ih hnd' hmem']

theorem length_filter_le_one_of_pairwise {L : List α} {Q : α → α → Prop}
    {P : α → Bool} (hpw : L.Pairwise Q)
    (h : ∀ x y, P x = true → P y = true → ¬Q x y) :
    (L.filter P).length ≤ 1 := by
  induction L with
  | nil => simp
  | cons x xs ih =>
    rcases List.pairwise_cons.mp hpw with ⟨hx, hpw'⟩
    by_cases hp : P x = true
    · have hnil : xs.filter P = [] := by
        refine List.filter_eq_nil_iff.mpr ?_
        intro y hy hPy
        exact h x y hp hPy (hx y hy)
      simp [List.filter_cons, hp, hnil]
    · simp only [List.filter_cons, if_neg hp]
      exact ih hpw'

theorem insertAll_nil (c : α → α → Bool) (tbl : List α) :
    insertAll c tbl [] = tbl := rfl

theorem insertAll_cons (c : α → α → Bool) (tbl : List α) (b : α) (B : List α) :
    insertAll c tbl (b :: B) = insertAll c (insertSkip c tbl b) B := rfl

theorem mem_insertSkip_of_mem {c : α → α → Bool} {tbl : List α} {x b : α}
    (h : x ∈ tbl) : x ∈ insertSkip c tbl b := by
  unfold insertSkip
  split
  · exact h
  · exact List.mem_append_left _ h

theorem mem_insertAll_of_mem {c : α → α → Bool} {tbl B : List α} {x : α}
    (h : x ∈ tbl) : x ∈ insertAll c tbl B := by
  induction B generalizing tbl with
  | nil => exact h
  | cons b B ih => exact ih (mem_insertSkip_of_mem h)

theorem insertAll_noop {c : α → α → Bool} {tbl B : List α}
    (h : ∀ b ∈ B, ∃ j ∈ tbl, c j b = true) : insertAll c tbl B = tbl := by
  induction B with
  | nil => rfl
  | cons b B ih =>
    have hb : insertSkip c tbl b = tbl := by
      unfold insertSkip
      rw [if_pos]
      rcases h b (List.mem_cons_self _ _) with ⟨j, hj, hc⟩
      exact List.any_eq_true.mpr ⟨j, hj, hc⟩
    rw [insertAll_cons, hb]
    exact ih fun b' hb' => h b' (List.mem_cons_of_mem _ hb')

theorem insertAll_conflict {c : α → α → Bool} (hrefl : ∀ x, c x x = true)
    {B : List α} : ∀ {tbl : List α}, ∀ b ∈ B,
      ∃ j ∈ insertAll c tbl B, c j b = true := by
  induction B with
  | nil => intro tbl b hb; cases hb
  | cons b0 B ih =>
    intro tbl b hb
    rcases List.mem_cons.mp hb with rfl | hb'
    · rw [insertAll_cons]
      by_cases hc : tbl.any (fun j => c j b) = true
      · rcases List.any_eq_true.mp hc with ⟨j, hj, hcj⟩
        exact ⟨j, mem_insertAll_of_mem (mem_insertSkip_of_mem hj), hcj⟩
      · have hself : b ∈ insertSkip c tbl b := by
          unfold insertSkip
          rw [if_neg hc]
          exact List.mem_append_right _ (List.mem_singleton.mpr rfl)
        exact ⟨b, mem_insertAll_of_mem hself, hrefl b⟩
    · rw [insertAll_cons]
      exact ih b hb'

theorem insertAll_of_no_conflict {c : α → α → Bool} {B : List α}
    (hpw : B.Pairwise fun x y => c x y = false) :
    ∀ {tbl : List α}, (∀ b ∈ B, ∀ j ∈ tbl, c j b = false) →
      insertAll c tbl B = tbl ++ B := by
  induction B with
  | nil => intro tbl _; simp [insertAll]
  | cons b B ih =>
    intro tbl hdisj
    rcases List.pairwise_cons.mp hpw with ⟨hb, hpw'⟩
    have hskip : insertSkip c tbl b = tbl ++ [b] := by
      unfold insertSkip
      rw [if_neg]
      intro hx
      rcases List.any_eq_true.mp hx with ⟨j, hj, hc⟩
      rw [hdisj b (List.mem_cons_self _ _) j hj] at hc
      cases hc
    have hdisj' : ∀ b' ∈ B, ∀ j ∈ tbl ++ [b], c j b' = false := by
      intro b' hb' j hj
      rcases List.mem_append.mp hj with hj | hj
      · exact hdisj b' (List.mem_cons_of_mem _ hb') j hj
      · rcases List.mem_singleton.mp hj with rfl
        exact hb b' hb'
    rw [insertAll_cons, hskip, ih hpw' hdisj']
    simp

theorem insertAll_sublist (c : α → α → Bool) (B : List α) :
    ∀ tbl : List α, ∃ D, D.Sublist B ∧ insertAll c tbl B = tbl ++ D := by
  induction B with
  | nil => intro tbl; exact ⟨[], List.nil_sublist _, by simp [insertAll]⟩
  | cons b B ih =>
    intro tbl
    rw [insertAll_cons]
    unfold insertSkip
    split
    · rcases ih tbl with ⟨D, hD, hEq⟩
      exact ⟨D, hD.cons _, hEq⟩
    · rcases ih (tbl ++ [b]) with ⟨D, hD, hEq⟩
      refine ⟨b :: D, hD.cons₂ _, ?_⟩
      rw [hEq]
      simp

theorem insertAll_pairwise {c natc : α → α → Bool}
    (hsub : ∀ j b, c j b = false → natc j b = false) {B : List α} :
    ∀ {tbl : List α}, tbl.Pairwise (fun x y => natc x y = false) →
      (insertAll c tbl B).Pairwise fun x y => natc x y = false := by
  induction B with
  | nil => intro tbl hpw; exact hpw
  | cons b B ih =>
    intro tbl hpw
    rw [insertAll_cons]
    refine ih ?_
    unfold insertSkip
    split
    · exact hpw
    · rename_i hany
      refine List.pairwise_append.mpr ⟨hpw, List.pairwise_singleton _ _, ?_⟩
      intro x hx y hy
      rcases List.mem_singleton.mp hy with rfl
      cases hcb : c x y with
      | false => exact hsub x y hcb
      | true => exact absurd (List.any_eq_true.mpr ⟨x, hx, hcb⟩) hany

theorem insertAll_exists_nat {idOf : α → Nat} {natc : α → α → Bool}
    (hrefl : ∀ x, natc x x = true) {B : List α} :
    ∀ {tbl : List α}, (B.map idOf).Nodup →
      (∀ j ∈ tbl, ∀ b ∈ B, idOf j ≠ idOf b) →
      ∀ b ∈ B, ∃ j ∈ insertAll (conflictOf idOf natc) tbl B, natc j b = true := by
  induction B with
  | nil => intro tbl _ _ b hb; cases hb
  | cons b0 B ih =>
    intro tbl hnd hdisj b hb
    have hnd' : (B.map idOf).Nodup := (List.nodup_cons.mp (by simpa using hnd)).2
    have hb0 : idOf b0 ∉ B.map idOf := (List.nodup_cons.mp (by simpa using hnd)).1
    rcases List.mem_cons.mp hb with rfl | hb'
    · rw [insertAll_cons]
      by_cases hc : tbl.any (fun j => conflictOf idOf natc j b) = true
      · rcases List.any_eq_true.mp hc with ⟨j, hj, hcj⟩
        have hnatc : natc j b = true := by
          cases hid : (idOf j == idOf b) with
          | true => exact absurd (by simpa using hid) (hdisj j hj b hb)
          | false =>
            have hcj' := hcj
            unfold conflictOf at hcj'
            rw [hid] at hcj'
            simpa using hcj'
        have hskip : insertSkip (conflictOf idOf natc) tbl b = tbl := by
          unfold insertSkip
          rw [if_pos hc]
        rw [hskip]
        exact ⟨j, mem_insertAll_of_mem hj, hnatc⟩
      · have hself : b ∈ insertSkip (conflictOf idOf natc) tbl b := by
          unfold insertSkip
          rw [if_neg hc]
          exact List.mem_append_right _ (List.mem_singleton.mpr rfl)
        exact ⟨b, mem_insertAll_of_mem hself, hrefl b⟩
    · rw [insertAll_cons]
      refine ih hnd' ?_ b hb'
      intro j hj b1 hb1
      unfold insertSkip at hj
      split at hj
      · exact hdisj j hj b1 (List.mem_cons_of_mem _ hb1)
      · rcases List.mem_append.mp hj with hj | hj
        · exact hdisj j hj b1 (List.mem_cons_of_mem _ hb1)
        · rcases List.mem_singleton.mp hj with rfl
          intro heq
          exact hb0 (heq ▸ List.mem_map_of_mem idOf hb1)

end Generic

/-! ## Facts about the instruments phase -/

/-- The instruments table produced by a run against a fresh database. -/
def instrTable (rs : List RawRow) : List Instrument :=
  instrInsertPhase [] rs

/-- The expiries table produced by a run against a fresh database. -/
def expTable (rs : List RawRow) : List Expiry :=
  expiryInsertPhase (instrTable rs) [] rs

theorem runPipeline_instruments (rs : List RawRow) :
    (runPipeline rs).instruments = instrTable rs := rfl

theorem runPipeline_expiries (rs : List RawRow) :
    (runPipeline rs).expiries = expTable rs := rfl

theorem runPipeline_trades (rs : List RawRow) :
    (runPipeline rs).trades = tradesPhase (instrTable rs) (expTable rs) rs := rfl

theorem sqlEqStr_none_left (b : Option String) : sqlEqStr none b = false := by
  cases b <;> rfl

theorem sqlEqStr_none_right (a : Option String) : sqlEqStr a none = false := by
  cases a <;> rfl

theorem sqlEqStr_some_left (a : String) (c : Option String) :
    sqlEqStr (some a) c = decide (c = some a) := by
  cases c with
  | none => rfl
  | some x => simp [sqlEqStr, eq_comm]

theorem eq_of_sqlEqStr {a b : Option String} (h : sqlEqStr a b = true) : a = b := by
  cases a with
  | none => cases b <;> cases h
  | some x =>
    cases b with
    | none => cases h
    | some y => simp_all [sqlEqStr]

theorem instrBatch_pairwise_noconf (rs : List RawRow) :
    (instrBatch rs).Pairwise fun x y => instrConflictB x y = false := by
  refine pairwise_numberFrom (List.nodup_dedup _) ?_ 1
  intro m k m' k' hm hk
  have hcc : (sqlEqStr k.1 k'.1 && sqlEqStr k.2 k'.2) = false := by
    cases h1 : sqlEqStr k.1 k'.1 with
    | false => rfl
    | true =>
      cases h2 : sqlEqStr k.2 k'.2 with
      | false => rfl
      | true =>
        exact absurd (Prod.ext_iff.mpr ⟨eq_of_sqlEqStr h1, eq_of_sqlEqStr h2⟩) hk
  unfold instrConflictB conflictOf instrNatConfB mkInstrument
  simp [Nat.ne_of_lt hm, hcc, Bool.and_assoc]

theorem instrTable_eq_batch (rs : List RawRow) :
    instrTable rs = instrBatch rs := by
  unfold instrTable instrInsertPhase
  rw [insertAll_of_no_conflict (instrBatch_pairwise_noconf rs)
    (fun b _ j hj => absurd hj (List.not_mem_nil j))]
  simp

theorem instrMatch_mk (m : Nat) (k : Option String × Option String) (a b : String) :
    instrMatchKeyB (mkInstrument m k) (some a) (some b)
      = decide (k = (some a, some b)) := by
  cases k with
  | mk k1 k2 =>
    simp [instrMatchKeyB, mkInstrument, sqlEqStr_some_left, Prod.ext_iff]

theorem mem_instrKeys_of_mem {rs : List RawRow} {r : RawRow} (h : r ∈ rs) :
    (r.instrument, r.symbol) ∈ instrKeys rs := by
  unfold instrKeys
  exact List.mem_dedup.mpr (List.mem_map_of_mem _ h)

theorem instr_filter_length_one {rs : List RawRow} {a b : String}
    (hmem : (some a, some b) ∈ instrKeys rs) :
    ((instrTable rs).filter fun i => instrMatchKeyB i (some a) (some b)).length
      = 1 := by
  rw [instrTable_eq_batch]
  unfold instrBatch
  rw [length_filter_numberFrom (fun m k => instrMatch_mk m k a b) 1 (instrKeys rs)]
  exact length_filter_key_eq_one (List.nodup_dedup _) hmem

theorem instrMatch_none {i : Instrument} {ins sym : Option String}
    (h : ins = none ∨ sym = none) : instrMatchKeyB i ins sym = false := by
  rcases h with rfl | rfl
  · simp [instrMatchKeyB, sqlEqStr_none_left]
  · simp [instrMatchKeyB, sqlEqStr_none_left]

theorem filter_instrMatch_nil {instrs : List Instrument} {r : RawRow}
    (h : r.instrument = none ∨ r.symbol = none) :
    (instrs.filter fun i => instrMatchKeyB i r.instrument r.symbol) = [] :=
  List.filter_eq_nil_iff.mpr fun i _ => by simp [instrMatch_none h]

theorem mem_instrTable {rs : List RawRow} {i : Instrument} (h : i ∈ instrTable rs) :
    ∃ m k, k ∈ instrKeys rs ∧ i = mkInstrument m k := by
  rw [instrTable_eq_batch] at h
  rcases mem_numberFrom h with ⟨m, k, _, hk, rfl⟩
  exact ⟨m, k, hk, rfl⟩

theorem exists_instr_row {rs : List RawRow} {k : Option String × Option String}
    (h : k ∈ instrKeys rs) : ∃ m, mkInstrument m k ∈ instrTable rs := by
  rw [instrTable_eq_batch]
  exact numberFrom_mem_of_mem h 1

theorem instrTable_ids_nodup (rs : List RawRow) :
    ((instrTable rs).map Instrument.instrument_id).Nodup := by
  rw [instrTable_eq_batch]
  unfold instrBatch
  rw [numberFrom_map_id (fun m k => rfl) 1]
  exact List.nodup_range' _ _

theorem instr_filter_eq_singleton {rs : List RawRow} {a b : String}
    (hmem : (some a, some b) ∈ instrKeys rs) :
    ∃ i0, ((instrTable rs).filter fun i => instrMatchKeyB i (some a) (some b)) = [i0]
      ∧ i0 ∈ instrTable rs ∧ i0.instrument_type = some a ∧ i0.symbol = some b := by
  rcases List.length_eq_one.mp (instr_filter_length_one hmem) with ⟨i0, h0⟩
  have hi0 : i0 ∈ (instrTable rs).filter fun i => instrMatchKeyB i (some a) (some b) :=
    h0 ▸ List.mem_singleton.mpr rfl
  have hmatch : instrMatchKeyB i0 (some a) (some b) = true := (List.mem_filter.mp hi0).2
  have h1 : sqlEqStr (some a) i0.instrument_type = true :=
    (Bool.and_eq_true_iff.mp hmatch).1
  have h2 : sqlEqStr (some b) i0.symbol = true :=
    (Bool.and_eq_true_iff.mp hmatch).2
  exact ⟨i0, h0, (List.mem_filter.mp hi0).1,
    (eq_of_sqlEqStr h1).symm, (eq_of_sqlEqStr h2).symm⟩

/-! ## Facts about the expiries phase -/

theorem expiryNatConfB_refl (x : Expiry) : expiryNatConfB x x = true := by
  simp [expiryNatConfB]

theorem expiryNatConf_sub (j b : Expiry) (h : expiryConflictB j b = false) :
    expiryNatConfB j b = false := by
  unfold expiryConflictB conflictOf at h
  cases hnc : expiryNatConfB j b with
  | false => rfl
  | true => rw [hnc] at h; simp at h

theorem expiryNatConfB_iff {j e : Expiry} :
    expiryNatConfB j e = true ↔
      j.instrument_id = e.instrument_id ∧ j.expiry_date = e.expiry_date ∧
        j.strike_price = e.strike_price ∧ j.option_type = e.option_type := by
  simp [expiryNatConfB, Bool.and_assoc]

theorem mem_expTable_mem_batch {rs : List RawRow} {ex : Expiry}
    (h : ex ∈ expTable rs) : ex ∈ expiryBatch (instrTable rs) rs := by
  unfold expTable expiryInsertPhase at h
  rcases insertAll_sublist expiryConflictB (expiryBatch (instrTable rs) rs) []
    with ⟨D, hD, hEq⟩
  rw [hEq] at h
  exact hD.mem (by simpa using h)

theorem expTable_pairwise (rs : List RawRow) :
    (expTable rs).Pairwise fun x y => expiryNatConfB x y = false := by
  unfold expTable expiryInsertPhase
  exact insertAll_pairwise expiryNatConf_sub List.Pairwise.nil

theorem expiryBatch_ids_nodup (instrs : List Instrument) (rs : List RawRow) :
    ((expiryBatch instrs rs).map Expiry.expiry_id).Nodup := by
  unfold expiryBatch
  rw [numberFrom_map_id (fun m p => rfl) 1]
  exact List.nodup_range' _ _

theorem expTable_exists_nat {rs : List RawRow} {b : Expiry}
    (hb : b ∈ expiryBatch (instrTable rs) rs) :
    ∃ j ∈ expTable rs, expiryNatConfB j b = true := by
  unfold expTable expiryInsertPhase expiryConflictB
  exact insertAll_exists_nat expiryNatConfB_refl (expiryBatch_ids_nodup _ _)
    (fun j hj => absurd hj (List.not_mem_nil j)) b hb

theorem mem_expiryBatch {instrs : List Instrument} {rs : List RawRow} {ex : Expiry}
    (h : ex ∈ expiryBatch instrs rs) :
    ∃ m p, p ∈ expiryJoin instrs rs ∧ ex = mkExpiry m p := by
  rcases mem_numberFrom h with ⟨m, p, _, hp, rfl⟩
  exact ⟨m, p, hp, rfl⟩

theorem mem_expiryContrib {instrs : List Instrument} {t : ExpiryTuple} {p : ExpiryPre}
    (h : p ∈ expiryContrib instrs t) :
    ∃ i, i ∈ instrs ∧ instrMatchKeyB i t.instrument t.symbol = true ∧
      p = { instrument_id := i.instrument_id, expiry_date := t.expiry_dt,
            strike_price := t.strike_pr.getD 0,
            option_type := t.option_typ.getD "XX" } := by
  unfold expiryContrib at h
  rcases List.mem_map.mp h with ⟨i, hi, rfl⟩
  rcases List.mem_filter.mp hi with ⟨hmem, hmatch⟩
  exact ⟨i, hmem, hmatch, rfl⟩

theorem mem_expiryTuples_of_mem {rs : List RawRow} {r : RawRow} {d : Date}
    (hr : r ∈ rs) (hd : r.expiry_dt = some d) :
    (⟨r.instrument, r.symbol, d, r.strike_pr, r.option_typ⟩ : ExpiryTuple)
      ∈ expiryTuples rs := by
  unfold expiryTuples
  refine List.mem_dedup.mpr (List.mem_filterMap.mpr ⟨r, hr, ?_⟩)
  rw [hd]
  rfl

theorem expMatchB_iff {ex : Expiry} {iid : Nat} {r : RawRow} {d : Date}
    (hd : r.expiry_dt = some d) :
    expMatchB ex iid r = true ↔
      ex.instrument_id = iid ∧ ex.expiry_date = d ∧
        ex.strike_price = r.strike_pr.getD 0 ∧
        ex.option_type = r.option_typ.getD "XX" := by
  simp [expMatchB, hd, Bool.and_assoc]

theorem expMatchB_none {ex : Expiry} {iid : Nat} {r : RawRow}
    (h : r.expiry_dt = none) : expMatchB ex iid r = false := by
  simp [expMatchB, h]

theorem exp_filter_length_one {rs : List RawRow} {r : RawRow}
    {d : Date} (hr : r ∈ rs)
    (hd : r.expiry_dt = some d) {i0 : Instrument}
    (hf : ((instrTable rs).filter
      fun i => instrMatchKeyB i r.instrument r.symbol) = [i0]) :
    ((expTable rs).filter fun ex => expMatchB ex i0.instrument_id r).length = 1 := by
  -- the distinct tuple contributed by `r`
  have ht : (⟨r.instrument, r.symbol, d, r.strike_pr, r.option_typ⟩ : ExpiryTuple)
      ∈ expiryTuples rs := mem_expiryTuples_of_mem hr hd
  -- its joined pre-row, built from the unique matching instrument
  have hcontrib : expiryContrib (instrTable rs)
      ⟨r.instrument, r.symbol, d, r.strike_pr, r.option_typ⟩
      = [{ instrument_id := i0.instrument_id, expiry_date := d,
           strike_price := r.strike_pr.getD 0,
           option_type := r.option_typ.getD "XX" }] := by
    unfold expiryContrib
    rw [hf]
    rfl
  have hpre : (⟨i0.instrument_id, d, r.strike_pr.getD 0,
      r.option_typ.getD "XX"⟩ : ExpiryPre)
      ∈ expiryJoin (instrTable rs) rs := by
    refine mem_flatMapL.mpr ⟨_, ht, ?_⟩
    rw [hcontrib]
    exact List.mem_singleton.mpr rfl
  rcases numberFrom_mem_of_mem hpre 1 with ⟨m, hm⟩
  rcases expTable_exists_nat hm with ⟨j, hj, hnat⟩
  have hjkey := expiryNatConfB_iff.mp hnat
  have hjmatch : expMatchB j i0.instrument_id r = true := by
    refine (expMatchB_iff hd).mpr ?_
    simpa [mkExpiry] using hjkey
  have hmemf : j ∈ (expTable rs).filter
      fun ex => expMatchB ex i0.instrument_id r :=
    List.mem_filter.mpr ⟨hj, hjmatch⟩
  have hle : ((expTable rs).filter
      fun ex => expMatchB ex i0.instrument_id r).length ≤ 1 := by
    refine length_filter_le_one_of_pairwise (expTable_pairwise rs) ?_
    intro x y hx hy hxy
    rcases (expMatchB_iff hd).mp hx with ⟨hx1, hx2, hx3, hx4⟩
    rcases (expMatchB_iff hd).mp hy with ⟨hy1, hy2, hy3, hy4⟩
    have : expiryNatConfB x y = true := expiryNatConfB_iff.mpr
      ⟨hx1.trans hy1.symm, hx2.trans hy2.symm, hx3.trans hy3.symm,
        hx4.trans hy4.symm⟩
    rw [this] at hxy
    cases hxy
  have hge : 1 ≤ ((expTable rs).filter
      fun ex => expMatchB ex i0.instrument_id r).length :=
    List.length_pos.mpr fun hnil => by rw [hnil] at hmemf; cases hmemf
  omega

/-! ## Facts about the trades phase -/

theorem tradeContrib_timestamp_none {instrs : List Instrument} {exps : List Expiry}
    {r : RawRow} (h : r.timestamp = none) : tradeContrib instrs exps r = [] := by
  unfold tradeContrib
  rw [h]

theorem tradeContrib_identity_none {instrs : List Instrument} {exps : List Expiry}
    {r : RawRow} (h : r.instrument = none ∨ r.symbol = none) :
    tradeContrib instrs exps r = [] := by
  unfold tradeContrib
  cases hts : r.timestamp with
  | none => rfl
  | some ts =>
    rw [filter_instrMatch_nil h]
    rfl

theorem tradeContrib_expiry_none {instrs : List Instrument} {exps : List Expiry}
    {r : RawRow} (h : r.expiry_dt = none) : tradeContrib instrs exps r = [] := by
  unfold tradeContrib
  cases hts : r.timestamp with
  | none => rfl
  | some ts =>
    refine flatMapL_eq_nil ?_
    intro i _
    rw [List.filter_eq_nil_iff.mpr fun ex _ => by simp [expMatchB_none h]]
    rfl

theorem tradeContrib_length_one {rs : List RawRow} {r : RawRow} {a b : String}
    {d ts : Date} (hr : r ∈ rs) (ha : r.instrument = some a)
    (hb : r.symbol = some b) (hd : r.expiry_dt = some d)
    (hts : r.timestamp = some ts) :
    (tradeContrib (instrTable rs) (expTable rs) r).length = 1 := by
  have hkey : (some a, some b) ∈ instrKeys rs := by
    have := mem_instrKeys_of_mem hr
    rwa [ha, hb] at this
  rcases instr_filter_eq_singleton hkey with ⟨i0, hf, _, _, _⟩
  have hf' : ((instrTable rs).filter
      fun i => instrMatchKeyB i r.instrument r.symbol) = [i0] := by
    rw [ha, hb]
    exact hf
  have hexp := exp_filter_length_one hr hd hf'
  unfold tradeContrib
  rw [hts, hf']
  simp [flatMapL, hexp]

theorem tradeContrib_length (rs : List RawRow) {r : RawRow} (hr : r ∈ rs) :
    (tradeContrib (instrTable rs) (expTable rs) r).length
      = if r.instrument.isSome && r.symbol.isSome && r.expiry_dt.isSome
            && r.timestamp.isSome then 1 else 0 := by
  cases ha : r.instrument with
  | none => rw [tradeContrib_identity_none (Or.inl ha)]; simp [ha]
  | some a =>
    cases hb : r.symbol with
    | none => rw [tradeContrib_identity_none (Or.inr hb)]; simp [ha, hb]
    | some b =>
      cases hd : r.expiry_dt with
      | none => rw [tradeContrib_expiry_none hd]; simp [ha, hb, hd]
      | some d =>
        cases hts : r.timestamp with
        | none => rw [tradeContrib_timestamp_none hts]; simp [ha, hb, hd, hts]
        | some ts =>
          rw [tradeContrib_length_one hr ha hb hd hts]
          simp [ha, hb, hd, hts]

theorem trades_length_eq (rs : List RawRow) :
    (runPipeline rs).trades.length
      = (rs.filter fun r => r.instrument.isSome && r.symbol.isSome
          && r.expiry_dt.isSome && r.timestamp.isSome).length := by
  rw [runPipeline_trades]
  unfold tradesPhase tradeJoin
  rw [numberFrom_length]
  exact length_flatMapL_eq_countP fun r hr => tradeContrib_length rs hr

theorem trades_ids_nodup (rs : List RawRow) :
    ((runPipeline rs).trades.map Trade.trade_id).Nodup := by
  rw [runPipeline_trades]
  unfold tradesPhase
  rw [numberFrom_map_id (fun m p => rfl) 1]
  exact List.nodup_range' _ _

theorem mem_trades_destruct {rs : List RawRow} {t : Trade}
    (h : t ∈ (runPipeline rs).trades) :
    ∃ r ∈ rs, ∃ ts, r.timestamp = some ts ∧
      ∃ i ∈ instrTable rs, ∃ ex ∈ expTable rs,
        instrMatchKeyB i r.instrument r.symbol = true ∧
        expMatchB ex i.instrument_id r = true ∧
        t.instrument_id = i.instrument_id ∧ t.expiry_id = ex.expiry_id ∧
        t.trade_date = ts ∧ t.timestamp = ts ∧
        t.«open» = r.«open».getD 0 ∧ t.high = r.high.getD 0 ∧
        t.low = r.low.getD 0 ∧ t.close = r.close.getD 0 ∧
        t.settle_price = r.settle_pr.getD 0 ∧
        t.contracts = r.contracts.getD 0 ∧
        t.value_in_lakh = r.val_inlakh.getD 0 ∧
        t.open_interest = r.open_int.getD 0 ∧
        t.change_in_oi = r.chg_in_oi.getD 0 := by
  rw [runPipeline_trades] at h
  unfold tradesPhase at h
  rcases mem_numberFrom h with ⟨m, p, _, hp, rfl⟩
  unfold tradeJoin at hp
  rcases mem_flatMapL.mp hp with ⟨r, hr, hpr⟩
  unfold tradeContrib at hpr
  cases hts : r.timestamp with
  | none => rw [hts] at hpr; cases hpr
  | some ts =>
    rw [hts] at hpr
    rcases mem_flatMapL.mp hpr with ⟨i, hi, hpi⟩
    rcases List.mem_filter.mp hi with ⟨hiT, him⟩
    rcases List.mem_map.mp hpi with ⟨ex, hex, rfl⟩
    rcases List.mem_filter.mp hex with ⟨hexT, hexm⟩
    exact ⟨r, hr, ts, hts, i, hiT, ex, hexT, him, hexm, rfl, rfl, rfl, rfl,
      rfl, rfl, rfl, rfl, rfl, rfl, rfl, rfl, rfl⟩

theorem mem_tradeContrib_fields {instrs : List Instrument} {exps : List Expiry}
    {r : RawRow} {p : TradePre} (h : p ∈ tradeContrib instrs exps r) :
    p.«open» = r.«open».getD 0 ∧ p.open_interest = r.open_int.getD 0 := by
  unfold tradeContrib at h
  cases hts : r.timestamp with
  | none => rw [hts] at h; cases h
  | some ts =>
    rw [hts] at h
    rcases mem_flatMapL.mp h with ⟨i, hi, hpi⟩
    rcases List.mem_map.mp hpi with ⟨ex, hex, rfl⟩
    exact ⟨rfl, rfl⟩

theorem instrConflictB_refl (x : Instrument) : instrConflictB x x = true := by
  simp [instrConflictB, conflictOf]

theorem expiryConflictB_refl (x : Expiry) : expiryConflictB x x = true := by
  simp [expiryConflictB, conflictOf]

theorem expTable_ids_nodup (rs : List RawRow) :
    ((expTable rs).map Expiry.expiry_id).Nodup := by
  unfold expTable expiryInsertPhase
  rcases insertAll_sublist expiryConflictB (expiryBatch (instrTable rs) rs) []
    with ⟨D, hD, hEq⟩
  rw [hEq]
  simp only [List.nil_append]
  exact List.Nodup.sublist (hD.map _) (expiryBatch_ids_nodup _ _)

/-! ## Concrete records used to instantiate the theorems -/

/-- A fully parseable futures record: valid identity, expiry and
timestamp; blank STRIKE_PR, OPTION_TYP and OPEN_INT. -/
def rowFut : RawRow :=
  { instrument := some "FUTIDX", symbol := some "NIFTY",
    expiry_dt := some ⟨2019, 8, 29⟩, strike_pr := none, option_typ := none,
    «open» := some 1100000, high := some 1105000, low := some 1095000,
    close := some 1102500, settle_pr := some 1102000, contracts := some 5000,
    val_inlakh := some 123456, open_int := none, chg_in_oi := some 250,
    timestamp := some ⟨2019, 8, 1⟩ }

/-- The CSV record that parses to `rowFut` (blank OPEN_INT cell). -/
def csvFut : CsvRow :=
  { INSTRUMENT := some "FUTIDX", SYMBOL := some "NIFTY",
    EXPIRY_DT := some "29-Aug-2019", STRIKE_PR := none, OPTION_TYP := none,
    OPEN := some "11000", HIGH := some "11050", LOW := some "10950",
    CLOSE := some "11025", SETTLE_PR := some "11020", CONTRACTS := some "5000",
    VAL_INLAKH := some "1234.56", OPEN_INT := none, CHG_IN_OI := some "250",
    TIMESTAMP := some "01-Aug-2019" }

/-- `csvFut` with a malformed (non-blank) expiry date. -/
def csvBadExpiry : CsvRow :=
  { csvFut with EXPIRY_DT := some "32-Foo-2019" }

/-- Like `rowFut` but with a NULL timestamp and every measure present. -/
def rowNoTs : RawRow :=
  { rowFut with open_int := some 77, timestamp := none }

/-- Like `rowFut` but with a NULL instrument identity column. -/
def rowNoInstr : RawRow :=
  { rowFut with instrument := none }

/-- The single trade row `runPipeline [rowFut]` produces. -/
def tFut : Trade :=
  { trade_id := 1, expiry_id := 1, instrument_id := 1,
    trade_date := ⟨2019, 8, 1⟩, «open» := 1100000, high := 1105000,
    low := 1095000, close := 1102500, settle_price := 1102000,
    contracts := 5000, value_in_lakh := 123456, open_interest := 0,
    change_in_oi := 250, timestamp := ⟨2019, 8, 1⟩ }

/-- The single instruments row `runPipeline [rowFut]` produces. -/
def iFut : Instrument :=
  { instrument_id := 1, exchange_id := 1, instrument_type := some "FUTIDX",
    symbol := some "NIFTY", series := "FUT" }

/-! ## The claims -/

/-- C1, counterexample.  The claim says exclusion from the fact table can
only come from null identity or expiry columns, and that a record whose only
failure is the timestamp field is still loaded.  `rowNoTs` has non-null
identity, expiry and all measures, but a null timestamp — and the
`WHERE r.timestamp IS NOT NULL` filter of the trades insert drops it. -/
theorem c1_counterexample :
    rowNoTs.instrument.isSome = true ∧ rowNoTs.symbol.isSome = true
      ∧ rowNoTs.expiry_dt.isSome = true
      ∧ (∀ v ∈ [rowNoTs.«open», rowNoTs.high, rowNoTs.low, rowNoTs.close,
          rowNoTs.settle_pr, rowNoTs.contracts, rowNoTs.val_inlakh,
          rowNoTs.open_int, rowNoTs.chg_in_oi], v.isSome = true)
      ∧ (runPipeline [rowNoTs]).trades = [] := by
  refine ⟨rfl, rfl, rfl, ?_, rfl⟩
  decide

/-- C1, amended: a parsed record is excluded from `trades` exactly when one
of instrument, symbol, expiry date or timestamp is null; a record whose only
parse failures are in measure fields is still loaded, with the failed
measures defaulted to 0. -/
theorem c1_fact_exclusion (rs : List RawRow) :
    ((runPipeline rs).trades.length
        = (rs.filter fun r => r.instrument.isSome && r.symbol.isSome
            && r.expiry_dt.isSome && r.timestamp.isSome).length)
    ∧ ∀ r ∈ rs, ∀ a b : String, ∀ d ts : Date,
        r.instrument = some a → r.symbol = some b → r.expiry_dt = some d →
        r.timestamp = some ts →
        ∃ t ∈ (runPipeline rs).trades,
          t.«open» = r.«open».getD 0 ∧ t.open_interest = r.open_int.getD 0 := by
  refine ⟨trades_length_eq rs, ?_⟩
  intro r hr a b d ts ha hb hd hts
  have hlen := tradeContrib_length_one hr ha hb hd hts
  rcases List.length_eq_one.mp hlen with ⟨p, hp⟩
  have hpmem : p ∈ tradeContrib (instrTable rs) (expTable rs) r :=
    hp ▸ List.mem_singleton.mpr rfl
  have hjoin : p ∈ tradeJoin (instrTable rs) (expTable rs) rs :=
    mem_flatMapL.mpr ⟨r, hr, hpmem⟩
  rcases numberFrom_mem_of_mem hjoin 1 with ⟨m, hm⟩
  rcases mem_tradeContrib_fields hpmem with ⟨ho, hoi⟩
  exact ⟨mkTrade m p, hm, ho, hoi⟩

/-- C1, witness for the amended theorem at a concrete input. -/
theorem c1_witness :
    ∃ t ∈ (runPipeline [rowFut]).trades,
      t.«open» = rowFut.«open».getD 0
        ∧ t.open_interest = rowFut.open_int.getD 0 :=
  (c1_fact_exclusion [rowFut]).2 rowFut (List.mem_singleton.mpr rfl)
    "FUTIDX" "NIFTY" ⟨2019, 8, 29⟩ ⟨2019, 8, 1⟩ rfl rfl rfl rfl

/-- C2, counterexample.  The claim says a parsed row with a null identity
column produces no `instruments` row, but the dimension insert has no
null filter: `rowNoInstr` (null INSTRUMENT) yields an instruments row. -/
theorem c2_counterexample :
    rowNoInstr.instrument = none
      ∧ (runPipeline [rowNoInstr]).instruments.length = 1 :=
  ⟨rfl, rfl⟩

/-- C2, amended: a parsed row with a null identity column still inserts an
`instruments` row carrying the null identity, but that row can never be
joined back (SQL NULL equality), so the record yields no `expiries` row and
no `trades` row. -/
theorem c2_identity_null (rs : List RawRow) (r : RawRow) (hr : r ∈ rs)
    (h : r.instrument = none ∨ r.symbol = none) :
    (∃ i ∈ (runPipeline rs).instruments,
        i.instrument_type = r.instrument ∧ i.symbol = r.symbol)
      ∧ ((runPipeline rs).instruments.filter
          fun i => instrMatchKeyB i r.instrument r.symbol) = []
      ∧ (∀ d, r.expiry_dt = some d →
          expiryContrib (runPipeline rs).instruments
            ⟨r.instrument, r.symbol, d, r.strike_pr, r.option_typ⟩ = [])
      ∧ tradeContrib (runPipeline rs).instruments (runPipeline rs).expiries r
          = [] := by
  refine ⟨?_, ?_, ?_, ?_⟩
  · rcases exists_instr_row (mem_instrKeys_of_mem hr) with ⟨m, hm⟩
    exact ⟨mkInstrument m (r.instrument, r.symbol), hm, rfl, rfl⟩
  · exact filter_instrMatch_nil h
  · intro d _
    unfold expiryContrib
    rw [filter_instrMatch_nil h]
    rfl
  · exact tradeContrib_identity_none h

/-- C2, witness for the amended theorem at a concrete input. -/
theorem c2_witness :
    (∃ i ∈ (runPipeline [rowNoInstr]).instruments,
        i.instrument_type = rowNoInstr.instrument ∧ i.symbol = rowNoInstr.symbol)
      ∧ ((runPipeline [rowNoInstr]).instruments.filter
          fun i => instrMatchKeyB i rowNoInstr.instrument rowNoInstr.symbol) = []
      ∧ (∀ d, rowNoInstr.expiry_dt = some d →
          expiryContrib (runPipeline [rowNoInstr]).instruments
            ⟨rowNoInstr.instrument, rowNoInstr.symbol, d, rowNoInstr.strike_pr,
              rowNoInstr.option_typ⟩ = [])
      ∧ tradeContrib (runPipeline [rowNoInstr]).instruments
          (runPipeline [rowNoInstr]).expiries rowNoInstr = [] :=
  c2_identity_null [rowNoInstr] rowNoInstr (List.mem_singleton.mpr rfl)
    (Or.inl rfl)

/-- C3: dimension insertion is idempotent — re-running both dimension
inserts over the same source data leaves the `instruments` and `expiries`
tables (hence their row counts) unchanged, each re-inserted tuple being a
conflict no-op. -/
theorem c3_idempotent_dims (rs : List RawRow) :
    instrInsertPhase (runPipeline rs).instruments rs
        = (runPipeline rs).instruments
      ∧ expiryInsertPhase (instrInsertPhase (runPipeline rs).instruments rs)
          (runPipeline rs).expiries rs = (runPipeline rs).expiries
      ∧ (instrInsertPhase (runPipeline rs).instruments rs).length
          = (runPipeline rs).instruments.length
      ∧ (expiryInsertPhase (instrInsertPhase (runPipeline rs).instruments rs)
          (runPipeline rs).expiries rs).length
            = (runPipeline rs).expiries.length := by
  have hi : instrInsertPhase (runPipeline rs).instruments rs
      = (runPipeline rs).instruments := by
    rw [runPipeline_instruments]
    unfold instrInsertPhase instrTable instrInsertPhase
    exact insertAll_noop fun b hb =>
      insertAll_conflict instrConflictB_refl b hb
  have he : expiryInsertPhase (instrInsertPhase (runPipeline rs).instruments rs)
      (runPipeline rs).expiries rs = (runPipeline rs).expiries := by
    rw [hi, runPipeline_instruments, runPipeline_expiries]
    unfold expiryInsertPhase expTable expiryInsertPhase
    exact insertAll_noop fun b hb =>
      insertAll_conflict expiryConflictB_refl b hb
  exact ⟨hi, he, by rw [hi], by rw [he]⟩

/-- C4: join completeness — every trade row references exactly one
instruments row and exactly one expiries row by surrogate key. -/
theorem c4_join_completeness (rs : List RawRow) (t : Trade)
    (ht : t ∈ (runPipeline rs).trades) :
    (∃! i, i ∈ (runPipeline rs).instruments
        ∧ i.instrument_id = t.instrument_id)
      ∧ ∃! ex, ex ∈ (runPipeline rs).expiries ∧ ex.expiry_id = t.expiry_id := by
  rcases mem_trades_destruct ht with
    ⟨r, hr, ts, hts, i, hiT, ex, hexT, him, hexm, hti, hte, _⟩
  constructor
  · refine ⟨i, ⟨hiT, hti.symm⟩, ?_⟩
    rintro j ⟨hjT, hj⟩
    exact List.inj_on_of_nodup_map (instrTable_ids_nodup rs) hjT hiT
      (by rw [hj, hti])
  · refine ⟨ex, ⟨hexT, hte.symm⟩, ?_⟩
    rintro j ⟨hjT, hj⟩
    exact List.inj_on_of_nodup_map (expTable_ids_nodup rs) hjT hexT
      (by rw [hj, hte])

/-- C4, witness at a concrete input. -/
theorem c4_witness :
    (∃! i, i ∈ (runPipeline [rowFut]).instruments
        ∧ i.instrument_id = tFut.instrument_id)
      ∧ ∃! ex, ex ∈ (runPipeline [rowFut]).expiries
          ∧ ex.expiry_id = tFut.expiry_id :=
  c4_join_completeness [rowFut] tFut (by decide)

/-- C5: every stored trade measure is non-null — it is the parsed source
value where the parse succeeded and the 0 default otherwise (COALESCE); the
first conjunct ties the blank-OPEN_INT CSV cell to a null parsed field. -/
theorem c5_default_not_null :
    parseCsvRow csvFut = Except.ok rowFut
      ∧ ∀ rs : List RawRow, ∀ t ∈ (runPipeline rs).trades, ∃ r ∈ rs,
          t.«open» = r.«open».getD 0 ∧ t.high = r.high.getD 0
            ∧ t.low = r.low.getD 0 ∧ t.close = r.close.getD 0
            ∧ t.settle_price = r.settle_pr.getD 0
            ∧ t.contracts = r.contracts.getD 0
            ∧ t.value_in_lakh = r.val_inlakh.getD 0
            ∧ t.open_interest = r.open_int.getD 0
            ∧ t.change_in_oi = r.chg_in_oi.getD 0 := by
  refine ⟨by rfl, ?_⟩
  intro rs t ht
  rcases mem_trades_destruct ht with
    ⟨r, hr, ts, hts, i, hiT, ex, hexT, him, hexm, hti, hte, htd, htts,
      ho, hh, hl, hc, hs, hct, hv, hoi, hch⟩
  exact ⟨r, hr, ho, hh, hl, hc, hs, hct, hv, hoi, hch⟩

/-- C5, witness at a concrete input (blank OPEN_INT loads as 0). -/
theorem c5_witness :
    ∃ r ∈ [rowFut],
      tFut.«open» = r.«open».getD 0 ∧ tFut.high = r.high.getD 0
        ∧ tFut.low = r.low.getD 0 ∧ tFut.close = r.close.getD 0
        ∧ tFut.settle_price = r.settle_pr.getD 0
        ∧ tFut.contracts = r.contracts.getD 0
        ∧ tFut.value_in_lakh = r.val_inlakh.getD 0
        ∧ tFut.open_interest = r.open_int.getD 0
        ∧ tFut.change_in_oi = r.chg_in_oi.getD 0 :=
  c5_default_not_null.2 [rowFut] tFut (by decide)

/-- C6: expiry rows store `COALESCE(strike_pr, 0)` and
`COALESCE(option_typ, 'XX')`, and a futures record (null strike and option
type) resolves to exactly one expiry row for its instrument and date, with
strike 0 and the XX sentinel. -/
theorem c6_futures_sentinel (rs : List RawRow) (r : RawRow) (hr : r ∈ rs)
    (a b : String) (d : Date) (ha : r.instrument = some a)
    (hb : r.symbol = some b) (hd : r.expiry_dt = some d)
    (hstrike : r.strike_pr = none) (htyp : r.option_typ = none) :
    (∀ ex ∈ (runPipeline rs).expiries, ∃ t ∈ expiryTuples rs,
        ex.strike_price = t.strike_pr.getD 0
          ∧ ex.option_type = t.option_typ.getD "XX")
      ∧ ∃ i0 ∈ (runPipeline rs).instruments,
          i0.instrument_type = some a ∧ i0.symbol = some b
            ∧ ∃! ex, ex ∈ (runPipeline rs).expiries
                ∧ ex.instrument_id = i0.instrument_id ∧ ex.expiry_date = d
                ∧ ex.strike_price = 0 ∧ ex.option_type = "XX" := by
  constructor
  · intro ex hex
    rcases mem_expiryBatch (mem_expTable_mem_batch hex) with ⟨m, p, hp, rfl⟩
    rcases mem_flatMapL.mp hp with ⟨t, htup, hcon⟩
    rcases mem_expiryContrib hcon with ⟨i, _, _, rfl⟩
    exact ⟨t, htup, rfl, rfl⟩
  · have hkey : (some a, some b) ∈ instrKeys rs := by
      have := mem_instrKeys_of_mem hr
      rwa [ha, hb] at this
    rcases instr_filter_eq_singleton hkey with ⟨i0, hf, hi0T, hty, hsym⟩
    have hf' : ((instrTable rs).filter
        fun i => instrMatchKeyB i r.instrument r.symbol) = [i0] := by
      rw [ha, hb]
      exact hf
    have hlen := exp_filter_length_one hr hd hf'
    rcases List.length_eq_one.mp hlen with ⟨ex0, he0⟩
    have hex0mem : ex0 ∈ (expTable rs).filter
        fun ex => expMatchB ex i0.instrument_id r :=
      he0 ▸ List.mem_singleton.mpr rfl
    rcases List.mem_filter.mp hex0mem with ⟨hex0T, hex0m⟩
    rcases (expMatchB_iff hd).mp hex0m with ⟨h1, h2, h3, h4⟩
    refine ⟨i0, hi0T, hty, hsym, ex0,
      ⟨hex0T, h1, h2, by rw [h3, hstrike]; rfl, by rw [h4, htyp]; rfl⟩, ?_⟩
    rintro ex' ⟨hex'T, h1', h2', h3', h4'⟩
    have hm' : expMatchB ex' i0.instrument_id r = true := by
      refine (expMatchB_iff hd).mpr ⟨h1', h2', ?_, ?_⟩
      · rw [hstrike]
        exact h3'
      · rw [htyp]
        exact h4'
    have hmem' : ex' ∈ (expTable rs).filter
        fun ex => expMatchB ex i0.instrument_id r :=
      List.mem_filter.mpr ⟨hex'T, hm'⟩
    rw [he0] at hmem'
    exact List.mem_singleton.mp hmem'

/-- C6, witness at a concrete input. -/
theorem c6_witness :
    (∀ ex ∈ (runPipeline [rowFut]).expiries, ∃ t ∈ expiryTuples [rowFut],
        ex.strike_price = t.strike_pr.getD 0
          ∧ ex.option_type = t.option_typ.getD "XX")
      ∧ ∃ i0 ∈ (runPipeline [rowFut]).instruments,
          i0.instrument_type = some "FUTIDX" ∧ i0.symbol = some "NIFTY"
            ∧ ∃! ex, ex ∈ (runPipeline [rowFut]).expiries
                ∧ ex.instrument_id = i0.instrument_id
                ∧ ex.expiry_date = ⟨2019, 8, 29⟩
                ∧ ex.strike_price = 0 ∧ ex.option_type = "XX" :=
  c6_futures_sentinel [rowFut] rowFut (List.mem_singleton.mpr rfl)
    "FUTIDX" "NIFTY" ⟨2019, 8, 29⟩ rfl rfl rfl rfl rfl

theorem startsWithChars_iff {p l : List Char} :
    startsWithChars p l = true ↔ p <+: l := by
  induction p generalizing l with
  | nil => simp [startsWithChars]
  | cons c cs ih =>
    cases l with
    | nil => simp [startsWithChars]
    | cons x xs => simp [startsWithChars, ih, List.cons_prefix_cons]

theorem containsChars_iff {p l : List Char} :
    containsChars p l = true ↔ p <:+: l := by
  induction l with
  | nil => simp [containsChars, startsWithChars_iff]
  | cons x xs ih =>
    simp [containsChars, startsWithChars_iff, ih, List.infix_cons_iff]

theorem likeContainsOPT_iff {c : Option String} :
    likeContainsOPT c = true
      ↔ ∃ s, c = some s ∧ "OPT".toList <:+: s.toList := by
  cases c with
  | none => simp [likeContainsOPT]
  | some s => simp [likeContainsOPT, containsChars_iff]

/-- C7: the derived `series` column is "OPT" exactly when the stored
instrument type contains the substring "OPT", and "FUT" otherwise; in
particular a FUTIDX record yields series "FUT". -/
theorem c7_series_derived (rs : List RawRow) :
    (∀ i ∈ (runPipeline rs).instruments,
        ((∃ s, i.instrument_type = some s ∧ "OPT".toList <:+: s.toList)
            → i.series = "OPT")
          ∧ ((¬∃ s, i.instrument_type = some s ∧ "OPT".toList <:+: s.toList)
            → i.series = "FUT"))
      ∧ ∀ r ∈ rs, r.instrument = some "FUTIDX" →
          ∃ i ∈ (runPipeline rs).instruments,
            i.instrument_type = some "FUTIDX" ∧ i.series = "FUT" := by
  constructor
  · intro i hi
    rcases mem_instrTable hi with ⟨m, k, hk, rfl⟩
    cases hlc : likeContainsOPT k.1 with
    | true =>
      constructor
      · intro _
        simp [mkInstrument, hlc]
      · intro hne
        exact absurd (likeContainsOPT_iff.mp hlc) hne
    | false =>
      constructor
      · rintro hex
        have hsome := likeContainsOPT_iff.mpr hex
        simp only [mkInstrument] at hsome
        rw [hlc] at hsome
        cases hsome
      · intro _
        simp [mkInstrument, hlc]
  · intro r hr hfi
    have hkey := mem_instrKeys_of_mem hr
    rw [hfi] at hkey
    rcases exists_instr_row hkey with ⟨m, hm⟩
    exact ⟨mkInstrument m (some "FUTIDX", r.symbol), hm, rfl, rfl⟩

/-- C7, witness at a concrete input. -/
theorem c7_witness :
    ∃ i ∈ (runPipeline [rowFut]).instruments,
      i.instrument_type = some "FUTIDX" ∧ i.series = "FUT" :=
  (c7_series_derived [rowFut]).2 rowFut (List.mem_singleton.mpr rfl) rfl

/-- C8: evaluation at the failing input EXPIRY_DT="32-Foo-2019".  DuckDB's
`strptime` raises on a malformed non-NULL string — the surrounding
`TRY_CAST` only guards the subsequent cast — so building `raw_data` aborts
the whole load with an error instead of silently excluding the record (the
claim's behavior is realised only for a NULL/blank expiry cell, last two
conjuncts). -/
theorem c8_strptime_raises :
    parseCsvRow csvBadExpiry = Except.error strptimeErrMsg
      ∧ buildRawData [csvFut, csvBadExpiry] = Except.error strptimeErrMsg
      ∧ strptimeDMonY "29-Aug-2019" = Except.ok ⟨2019, 8, 29⟩
      ∧ parseCsvRow { csvFut with EXPIRY_DT := none }
          = Except.ok { rowFut with expiry_dt := none }
      ∧ (runPipeline [{ rowFut with expiry_dt := none }]).trades.length = 0
      ∧ (runPipeline [rowFut]).trades.length = 1 :=
  ⟨by rfl, by rfl, by rfl, by rfl, by rfl, by rfl⟩

/-- C9: no fact-level deduplication — appending two identical parsed records
that survive the joins adds exactly two trade rows, which share the same
instrument and expiry surrogate keys but have distinct trade ids. -/
theorem c9_no_fact_dedup (rs : List RawRow) (r : RawRow) (a b : String)
    (d ts : Date) (ha : r.instrument = some a) (hb : r.symbol = some b)
    (hd : r.expiry_dt = some d) (hts : r.timestamp = some ts) :
    (runPipeline (rs ++ [r, r])).trades.length
        = (runPipeline rs).trades.length + 2
      ∧ ∃ t1 t2, t1 ∈ (runPipeline (rs ++ [r, r])).trades
          ∧ t2 ∈ (runPipeline (rs ++ [r, r])).trades
          ∧ t1.trade_id ≠ t2.trade_id
          ∧ t1.instrument_id = t2.instrument_id
          ∧ t1.expiry_id = t2.expiry_id := by
  have hpred : (r.instrument.isSome && r.symbol.isSome && r.expiry_dt.isSome
      && r.timestamp.isSome) = true := by
    simp [ha, hb, hd, hts]
  constructor
  · rw [trades_length_eq, trades_length_eq, List.filter_append,
      List.length_append]
    have h2 : (([r, r] : List RawRow).filter fun x => x.instrument.isSome
        && x.symbol.isSome && x.expiry_dt.isSome && x.timestamp.isSome)
        = [r, r] := by
      simp [List.filter_cons, hpred]
    rw [h2]
    rfl
  · have hr' : r ∈ rs ++ [r, r] :=
      List.mem_append_right _ (List.mem_cons_self _ _)
    have hlen1 := tradeContrib_length_one hr' ha hb hd hts
    rcases List.length_eq_one.mp hlen1 with ⟨p, hp⟩
    have hjoin : tradeJoin (instrTable (rs ++ [r, r])) (expTable (rs ++ [r, r]))
        (rs ++ [r, r])
        = flatMapL (tradeContrib (instrTable (rs ++ [r, r]))
            (expTable (rs ++ [r, r]))) rs ++ [p, p] := by
      unfold tradeJoin
      rw [flatMapL_append]
      congr 1
      show flatMapL _ [r, r] = [p, p]
      simp [flatMapL, hp]
    refine ⟨mkTrade (1 + (flatMapL (tradeContrib (instrTable (rs ++ [r, r]))
        (expTable (rs ++ [r, r]))) rs).length) p,
      mkTrade (1 + (flatMapL (tradeContrib (instrTable (rs ++ [r, r]))
        (expTable (rs ++ [r, r]))) rs).length + 1) p, ?_, ?_, ?_, rfl, rfl⟩
    · rw [runPipeline_trades]
      unfold tradesPhase
      rw [hjoin, numberFrom_append]
      refine List.mem_append_right _ ?_
      exact List.mem_cons_self _ _
    · rw [runPipeline_trades]
      unfold tradesPhase
      rw [hjoin, numberFrom_append]
      refine List.mem_append_right _ ?_
      exact List.mem_cons_of_mem _ (List.mem_cons_self _ _)
    · show 1 + (flatMapL (tradeContrib (instrTable (rs ++ [r, r]))
        (expTable (rs ++ [r, r]))) rs).length
          ≠ 1 + (flatMapL (tradeContrib (instrTable (rs ++ [r, r]))
            (expTable (rs ++ [r, r]))) rs).length + 1
      omega

/-- C9, witness at a concrete input. -/
theorem c9_witness :
    (runPipeline [rowFut, rowFut]).trades.length
        = (runPipeline ([] : List RawRow)).trades.length + 2
      ∧ ∃ t1 t2, t1 ∈ (runPipeline [rowFut, rowFut]).trades
          ∧ t2 ∈ (runPipeline [rowFut, rowFut]).trades
          ∧ t1.trade_id ≠ t2.trade_id
          ∧ t1.instrument_id = t2.instrument_id
          ∧ t1.expiry_id = t2.expiry_id :=
  c9_no_fact_dedup [] rowFut "FUTIDX" "NIFTY" ⟨2019, 8, 29⟩ ⟨2019, 8, 1⟩
    rfl rfl rfl rfl

/-- C10: every instruments row carries exchange_id 1 (the seeded NSE row);
the seeded BSE (id 2) and MCX (id 3) rows are never referenced, and every
trade row joins to an instruments row with exchange_id 1. -/
theorem c10_nse_only (rs : List RawRow) :
    ((runPipeline rs).exchanges.map fun e => (e.exchange_id, e.exchange_code))
        = [(1, "NSE"), (2, "BSE"), (3, "MCX")]
      ∧ (∀ i ∈ (runPipeline rs).instruments, i.exchange_id = 1)
      ∧ ∀ t ∈ (runPipeline rs).trades,
          ∃ i ∈ (runPipeline rs).instruments,
            i.instrument_id = t.instrument_id ∧ i.exchange_id = 1 := by
  refine ⟨rfl, ?_, ?_⟩
  · intro i hi
    rcases mem_instrTable hi with ⟨m, k, _, rfl⟩
    rfl
  · intro t ht
    rcases mem_trades_destruct ht with
      ⟨r, hr, ts, hts, i, hiT, ex, hexT, him, hexm, hti, _⟩
    rcases mem_instrTable hiT with ⟨m, k, hk, rfl⟩
    exact ⟨mkInstrument m k, hiT, hti.symm, rfl⟩

/-- C10, witness at a concrete input. -/
theorem c10_witness :
    iFut.exchange_id = 1
      ∧ ∃ i ∈ (runPipeline [rowFut]).instruments,
          i.instrument_id = tFut.instrument_id ∧ i.exchange_id = 1 :=
  ⟨(c10_nse_only [rowFut]).2.1 iFut (by decide),
    (c10_nse_only [rowFut]).2.2 tFut (by decide)⟩

end FOPipeline
